import Mathlib

/-!
Verification of the batch orchestration and OCR-result reconciliation core of
an OCR processing pipeline (`main.py`, `utils/helpers.py`, `utils/aws_utils.py`,
`utils/chatgpt_utils.py`), as a shallow embedding in Lean 4.

Pure functions of the source are translated to Lean functions; the module-level
name environment of the Python program (star-imports into `main.py`) is
modelled explicitly, because the shipped code calls two names
(`upload_file_to_s3`, `delete_all_files_in_bucket`) that are defined nowhere,
and at several call sites passes more positional arguments than the callee
accepts; both situations raise at call time in Python and are modelled as
explicit `PyErr` errors.  `while`-loops are modelled with explicit fuel: a
result of `none` after `n` units of fuel means the loop is still running after
`n` iterations, for every `n`.
-/

namespace OcrPipeline


/-! ## `utils/helpers.py`: `split_into_batches` -/

/-- Embedding of `helpers.split_into_batches`:
`for i in range(0, len(items), batch_size): yield items[i:i + batch_size]`.
For `batch_size ≥ 1` this is exactly the chunking recursion below
(`items[i:i+b]` is `(items.drop i).take b`); Python raises `ValueError` for a
zero step, which we model as the empty output (the claims only concern
`batch_size ≥ 1`). -/
def split_into_batches : List α → Nat → List (List α)
  | [], _ => []
  | _ :: _, 0 => []
  | a :: rest, b + 1 =>
      (a :: rest).take (b + 1) :: split_into_batches ((a :: rest).drop (b + 1)) (b + 1)
termination_by items _ => items.length
decreasing_by
  simp only [List.length_drop, List.length_cons]
  omega

/-! ## Path model: the `os.path` fragments used by the pipeline -/

/-- Index of the last occurrence of `c` in `cs`, if any (Python `str.rfind`). -/
def lastIdxOf (c : Char) : List Char → Option Nat
  | [] => none
  | a :: as =>
    match lastIdxOf c as with
    | some i => some (i + 1)
    | none => if a = c then some 0 else none

/-- Case analysis helper for `splitext` on the position of the last dot. -/
def splitextAt (p : String) : Option Nat → String × String
  | none => (p, "")
  | some d =>
    if (p.data.take d).all (· = '.') then (p, "")
    else (⟨p.data.take d⟩, ⟨p.data.drop d⟩)

/-- Embedding of `os.path.splitext` for path components without a directory
separator (the pipeline only applies it to entries of `os.listdir`): split at
the last dot, unless every character before that dot is itself a dot (so
`".pdf"` has no extension), exactly as in CPython's `posixpath._splitext`. -/
def splitext (p : String) : String × String :=
  splitextAt p (lastIdxOf '.' p.data)

/-- Embedding of two-argument POSIX `os.path.join`. -/
def path_join (a b : String) : String :=
  if b.data.head? = some '/' then b
  else if a = "" ∨ a.data.getLast? = some '/' then a ++ b
  else a ++ "/" ++ b

/-- The record returned by `helpers.get_file_paths`. -/
structure FilePaths where
  base_name : String
  path_to_file : String
  pdf_file : String
  s3_pdf_key : String
  doc_output_dir : String
deriving DecidableEq

/-- Embedding of `helpers.get_file_paths`: every derived path and key is
keyed on `base_name`, the filename without its extension. -/
def get_file_paths (filename tmp_dir input_dir output_dir : String) : FilePaths :=
  let base_name := (splitext filename).1
  { base_name := base_name
    path_to_file := path_join input_dir filename
    pdf_file := path_join tmp_dir (base_name ++ ".pdf")
    s3_pdf_key := base_name ++ ".pdf"
    doc_output_dir := path_join output_dir base_name }

/-- Model of `str.lower`, at at the character level (ASCII lowercasing, which is
all the Driver's extension comparison needs). -/
def py_lower (s : String) : String := ⟨s.data.map Char.toLower⟩

/-- Model of `str.startswith`, at the character level. -/
def py_startswith (s pre : String) : Bool :=
  s.data.take pre.data.length == pre.data

/-- Model of `str.endswith`, at the character level. -/
def py_endswith (s suf : String) : Bool :=
  s.data.drop (s.data.length - suf.data.length) == suf.data

/-- Embedding of the Pipeline Driver's input filter (`main.py`):
`not f.startswith("._") and f.lower().endswith((".jpg", ".jpeg", ".pdf", ".png", ".tiff"))`. -/
def accepted_input (f : String) : Bool :=
  !(py_startswith f "._") &&
    (py_endswith (py_lower f) ".jpg" || py_endswith (py_lower f) ".jpeg" ||
     py_endswith (py_lower f) ".pdf" || py_endswith (py_lower f) ".png" ||
     py_endswith (py_lower f) ".tiff")

/-! ## `extract_and_save_text_and_coords`: the raw-text artifact content -/

/-- Content of the raw-text artifact written by
`extract_and_save_text_and_coords`: `f.write("\n".join(lines))`. -/
def raw_text_content (lines : List String) : String :=
  String.intercalate "\n" lines

/-! ## Python call semantics: the module environment shipped in `main.py` -/

/-- Errors a modelled Python call can raise. -/
inductive PyErr where
  | nameError (n : String)
  | typeError (n : String)
  | exc (msg : String)
deriving DecidableEq

/-- The function names defined across `main.py` and the three modules it
star-imports (`utils.helpers`, `utils.aws_utils`, `utils.chatgpt_utils`).
Neither `upload_file_to_s3` nor `delete_all_files_in_bucket` is among them:
those two names are called in the shipped code but defined nowhere. -/
def definedNames : List String :=
  ["upload_files_to_s3", "delete_files_from_s3", "list_s3_jpg_files",
   "extract_and_save_text_and_coords", "start_textract_job",
   "wait_for_completion", "split_into_batches", "get_file_paths",
   "convert_to_pdf", "clean_tmp_folder", "initialize_logging", "log_runtime",
   "correct_text_with_chatgpt", "extract_entities_with_chatgpt",
   "extract_page_and_split_letters", "prepare_file_for_textract",
   "process_textract_result"]

/-- Which positional-argument counts each defined function accepts (from the
`def` signatures in the source, counting default parameters as optional). -/
def acceptsArgs : String → Nat → Bool
  | "upload_files_to_s3", k => k == 1
  | "delete_files_from_s3", k => k == 1
  | "list_s3_jpg_files", k => k == 0
  | "extract_and_save_text_and_coords", k => k == 3
  | "start_textract_job", k => k == 1
  | "wait_for_completion", k => k == 1
  | "split_into_batches", k => k == 2
  | "get_file_paths", k => k == 4
  | "convert_to_pdf", k => decide (2 ≤ k ∧ k ≤ 4)
  | "clean_tmp_folder", k => k == 1
  | "initialize_logging", k => decide (k ≤ 1)
  | "log_runtime", k => k == 1
  | "correct_text_with_chatgpt", k => decide (5 ≤ k ∧ k ≤ 6)
  | "extract_entities_with_chatgpt", k => k == 5
  | "extract_page_and_split_letters", k => k == 3
  | "prepare_file_for_textract", k => k == 1
  | "process_textract_result", k => k == 2
  | _, _ => false

/-- A Python call: resolve the name in the module environment at call time
(`NameError` if absent), check the positional-argument count (`TypeError` on
mismatch), then run the callee's effect. -/
def pyCall (n : String) (args : Nat) (impl : Except PyErr α) : Except PyErr α :=
  if definedNames.contains n then
    if acceptsArgs n args then impl else .error (.typeError n)
  else .error (.nameError n)

/-! ## `main.py`: `prepare_file_for_textract` and the Batch Coordinator -/

/-- The per-document JobRecord built by a successful preparation. -/
structure JobInfo where
  job_id : String
  doc_output_dir : String
  s3_pdf_key : String
deriving DecidableEq

/-- Injectable outcomes of the external collaborators reachable from one
document's preparation (conversion success, and what the upload and job
submission would do if their calls ever executed). -/
structure PrepEnv where
  convert_ok : String → Bool
  upload_impl : String → Except PyErr Unit
  job_impl : String → Except PyErr String

/-- The body of `prepare_file_for_textract` (inside its `try`): derive paths,
convert non-PDF inputs (`convert_to_pdf` re-raises conversion failures), then
call `upload_file_to_s3` — a name resolved in the module environment at call
time — and `start_textract_job`. -/
def prepare_body (env : PrepEnv) (tmp_dir input_dir output_dir filename : String) :
    Except PyErr (String × JobInfo) :=
  let paths := get_file_paths filename tmp_dir input_dir output_dir
  let ext := py_lower (splitext filename).2
  match (if ext ≠ ".pdf"
         then (if env.convert_ok filename then Except.ok paths.pdf_file
               else Except.error (PyErr.exc "CalledProcessError"))
         else Except.ok paths.path_to_file) with
  | .error e => .error e
  | .ok pdf_to_upload =>
    match pyCall "upload_file_to_s3" 4 (env.upload_impl pdf_to_upload) with
    | .error e => .error e
    | .ok _ =>
      match pyCall "start_textract_job" 3 (env.job_impl paths.s3_pdf_key) with
      | .error e => .error e
      | .ok job_id =>
        .ok (paths.base_name,
             { job_id := job_id, doc_output_dir := paths.doc_output_dir,
               s3_pdf_key := paths.s3_pdf_key })

/-- Embedding of `prepare_file_for_textract` with its catch-all `except Exception`: any
error raised by the body is logged and becomes the absence marker `None`. -/
def prepare_file_for_textract (env : PrepEnv)
    (tmp_dir input_dir output_dir filename : String) :
    Option (String × JobInfo) :=
  (prepare_body env tmp_dir input_dir output_dir filename).toOption

/-- The catch-all document boundary of `prepare_file_for_textract`, abstracted
over the body of the `try` block: an exception becomes the absence marker. -/
def doc_boundary (body : α → Except PyErr β) (d : α) : Option β :=
  (body d).toOption

/-- Phase 1 of the Batch Coordinator: fan out preparation over the batch and
collect the non-`None` results into the JobTable; documents whose preparation
failed are simply absent.  (The `as_completed` completion order affects only
dict insertion order, not which documents appear.) -/
def phase1_jobs (prep : String → Option (String × JobInfo)) (batch : List String) :
    List (String × JobInfo) :=
  batch.filterMap prep

/-- Phase 2 of the Batch Coordinator:
`for future in as_completed(futures): future.result()` — there is no
`try` around `future.result()`, so the first exception raised inside a
harvesting task re-raises in the coordinator and aborts the loop. -/
def phase2_collect (harvest : String × JobInfo → Except PyErr Unit) :
    List (String × JobInfo) → Except PyErr Unit
  | [] => .ok ()
  | j :: rest =>
    match harvest j with
    | .ok _ => phase2_collect harvest rest
    | .error e => .error e

/-- The remote-deletion step of the end-of-batch teardown
(`delete_all_files_in_bucket(s3, bucket_name)` in the batch loop), with the
deletion's would-be effect injectable: the call is resolved in the module
environment at call time and is passed two positional arguments. -/
def batch_teardown_deletes (delete_impl : Except PyErr (List String)) :
    Except PyErr (List String) :=
  pyCall "delete_all_files_in_bucket" 2 delete_impl

/-! ## C3: failure isolation -/

/-- A concrete JobRecord for the failure-isolation scenarios. -/
def jobEx : JobInfo :=
  { job_id := "job-1", doc_output_dir := "out/a", s3_pdf_key := "a.pdf" }

/-- A harvesting task that raises on document `"a"` only. -/
def harvestEx : String × JobInfo → Except PyErr Unit :=
  fun j => if j.1 = "a" then .error (.exc "boom") else .ok ()

/-- A preparation body that fails on document `"b"` only. -/
def prepBodyEx : String → Except PyErr (String × JobInfo) :=
  fun d => if d = "b" then .error (.exc "injected") else .ok (d, jobEx)

/-! ## `aws_utils.wait_for_completion` (OCR Completion Waiter) -/

/-- The `while True` polling loop of the shipped `wait_for_completion`, with
`status i` the `JobStatus` string reported on the i-th poll and explicit
fuel.  The source loop has NO retry budget: its only exits are the
`SUCCEEDED` branch (returns `True`) and the `FAILED` branch (returns `False`);
on any other status it sleeps a hard-coded 5 seconds and polls again.  A
result of `none` means the loop is still polling after that many
iterations. -/
def wait_for_completion (status : Nat → String) : Nat → Nat → Option Bool
  | _, 0 => none
  | i, fuel + 1 =>
    if status i = "SUCCEEDED" then some true
    else if status i = "FAILED" then some false
    else wait_for_completion status (i + 1) fuel

/-! ## `aws_utils.extract_and_save_text_and_coords` (Result Harvester) -/

/-- One element of a Textract response's `Blocks` list; `conf` and `box` are
the confidence-score and bounding-box payloads carried by WORD blocks. -/
structure Block (C B : Type) where
  blockType : String
  text : String
  conf : C
  box : B

/-- One response of `get_document_text_detection`. -/
structure TextractResponse (C B : Type) where
  blocks : List (Block C B)
  nextToken : Option String

/-- A word-level record destined for the `.coords.json` artifact. -/
structure WordInfo (C B : Type) where
  text : String
  confidence : C
  boundingBox : B

/-- The page-collection loop of `extract_and_save_text_and_coords`: append the
current response to `pages`, then keep fetching while the response carries a
`NextToken`.  `resp i` is the response to the i-th fetch; fuel bounds the
modelled iteration count (`none` = the loop is still fetching). -/
def fetch_pages (resp : Nat → TextractResponse C B) :
    Nat → Nat → List (TextractResponse C B) →
      Option (List (TextractResponse C B))
  | _, 0, _ => none
  | i, fuel + 1, acc =>
    match (resp i).nextToken with
    | none => some (acc ++ [resp i])
    | some _ => fetch_pages resp (i + 1) fuel (acc ++ [resp i])

/-- The block-parsing pass: one loop over every page's `Blocks`, appending
LINE text to `lines` and WORD records (text, confidence, bounding box) to
`word_info`, in source order. -/
def parse_block (acc : List String × List (WordInfo C B)) (b : Block C B) :
    List String × List (WordInfo C B) :=
  if b.blockType = "LINE" then (acc.1 ++ [b.text], acc.2)
  else if b.blockType = "WORD" then
    (acc.1, acc.2 ++ [{ text := b.text, confidence := b.conf, boundingBox := b.box }])
  else acc

/-- The nested page/block loop producing `lines` and `word_info`. -/
def parse_pages (pages : List (TextractResponse C B)) :
    List String × List (WordInfo C B) :=
  pages.foldl (fun acc p => p.blocks.foldl parse_block acc) ([], [])

/-- All LINE texts of one response, in order. -/
def line_texts (p : TextractResponse C B) : List String :=
  p.blocks.filterMap (fun b => if b.blockType = "LINE" then some b.text else none)

/-- All WORD records of one response, in order. -/
def word_records (p : TextractResponse C B) : List (WordInfo C B) :=
  p.blocks.filterMap (fun b =>
    if b.blockType = "WORD" then
      some { text := b.text, confidence := b.conf, boundingBox := b.box }
    else none)

/-- Step 1 of the Result Harvester: collect all pages, then parse LINE and
WORD blocks.  The collected pages are returned alongside so the number of
fetches issued is observable. -/
def extract_and_save_text_and_coords (resp : Nat → TextractResponse C B)
    (fuel : Nat) :
    Option (List (TextractResponse C B) × List String × List (WordInfo C B)) :=
  (fetch_pages resp 0 fuel []).map (fun pages => (pages, parse_pages pages))

/-- A two-page mock response sequence: page 0 carries a cursor, page 1 does
not. -/
def respEx : Nat → TextractResponse Unit Unit := fun i =>
  if i = 0 then
    { blocks := [{ blockType := "LINE", text := "Dear Sir", conf := (), box := () },
                 { blockType := "WORD", text := "Dear", conf := (), box := () }],
      nextToken := some "t1" }
  else
    { blocks := [{ blockType := "LINE", text := "Yours truly", conf := (), box := () }],
      nextToken := none }

/-! ## `main.py` `process_textract_result` after a successful wait (C7) -/

/-- Observable actions of the post-wait segment of `process_textract_result`. -/
inductive Event where
  | correctCall (text : String)
  | entityCall (text : String)
  | splitCall (path : String)
  | warnLog (base : String)
  | writeFile (path : String)
deriving DecidableEq

/-- Environment of one document's Steps 3–4: the text-correction
collaborator's return value (a path, or `None` on failure), whether a path
exists on disk (`os.path.exists`), and file contents (`open(...).read()`). -/
structure HarvestEnv where
  corrected_ret : Option String
  path_exists : String → Bool
  read_file : String → String

/-- The Python truthiness test guarding Step 4's input:
`if corrected_path and os.path.exists(corrected_path):`. -/
def correction_ok (env : HarvestEnv) : Bool :=
  match env.corrected_ret with
  | none => false
  | some p => (p != "") && env.path_exists p

/-- Embedding of `process_textract_result` after `wait_for_completion`
reported success and Steps 1–2 produced `raw_text`: invoke correction; if it
returned a path that exists, read it and run entity extraction on the
corrected text, then detect/split letters and persist the combined output;
otherwise log a warning and run entity extraction on the raw text. -/
def process_textract_result_trace (base_name doc_output_dir raw_text : String)
    (env : HarvestEnv) : List Event :=
  Event.correctCall raw_text ::
  (match env.corrected_ret with
   | some p =>
     if (p != "") && env.path_exists p then
       [Event.entityCall (env.read_file p), Event.splitCall p,
        Event.writeFile (path_join doc_output_dir
          (base_name ++ ".combined_output.json"))]
     else
       [Event.warnLog base_name, Event.entityCall raw_text]
   | none => [Event.warnLog base_name, Event.entityCall raw_text])

/-- The arguments of the entity-extraction calls in a trace, in order. -/
def entity_call_args (tr : List Event) : List String :=
  tr.filterMap (fun e => match e with | .entityCall t => some t | _ => none)

/-- Number of warnings logged in a trace. -/
def warn_count (tr : List Event) : Nat :=
  (tr.filter (fun e => match e with | .warnLog _ => true | _ => false)).length

/-! ## `chatgpt_utils.extract_entities_with_chatgpt` (C8) -/

/-- Outcome of `extract_entities_with_chatgpt` once the collaborator returned
the text `result`: the files written (path, content) and the Python return
value.  `parse` models `json.loads` restricted to its success/failure split
(`none` = `json.JSONDecodeError`), and `dump` models the `json.dump`
serialization of the parsed record. -/
def extract_entities_with_chatgpt (parse : String → Option J) (dump : J → String)
    (result base_name doc_output_dir : String) :
    List (String × String) × Option String :=
  match parse result with
  | some parsed =>
    let entity_path := path_join doc_output_dir (base_name ++ ".entities.json")
    ([(entity_path, dump parsed)], some entity_path)
  | none =>
    let raw_path := path_join doc_output_dir (base_name ++ ".entities_raw.txt")
    ([(raw_path, result)], none)

/-! ## Theorems -/

theorem split_into_batches_nil (b : Nat) :
    split_into_batches ([] : List α) b = [] := by
  rw [split_into_batches]

theorem split_into_batches_cons {items : List α} {b : Nat}
    (hb : b ≠ 0) (hi : items ≠ []) :
    split_into_batches items b =
      items.take b :: split_into_batches (items.drop b) b := by
  match items, b with
  | [], _ => exact absurd rfl hi
  | _ :: _, 0 => exact absurd rfl hb
  | a :: rest, b + 1 => rw [split_into_batches]

/-- For lists not longer than `l`, a last-batch ≠ [] helper. -/
theorem getLast?_cons_of_tail_ne_nil {l : List α} (h : l ≠ []) (a : α) :
    (a :: l).getLast? = l.getLast? := by
  cases l with
  | nil => exact absurd rfl h
  | cons b t => simp

/-- Number of batches: `ceil (N / B) = (N + B - 1) / B` for `B ≥ 1`,
proved on all lists of length at most `n`. -/
theorem split_into_batches_length_aux {b : Nat} (hb : 1 ≤ b) :
    ∀ n (items : List α), items.length ≤ n →
      (split_into_batches items b).length = (items.length + b - 1) / b := by
  have hb0 : b ≠ 0 := Nat.one_le_iff_ne_zero.mp hb
  intro n
  induction n with
  | zero =>
    intro items h
    have : items = [] := List.length_eq_zero.mp (Nat.le_zero.mp h)
    subst this
    rw [split_into_batches_nil]
    simp only [List.length_nil, List.length_nil, Nat.zero_add]
    exact (Nat.div_eq_of_lt (by omega)).symm
  | succ n ih =>
    intro items h
    match items with
    | [] =>
      rw [split_into_batches_nil]
      simp only [List.length_nil, Nat.zero_add]
      exact (Nat.div_eq_of_lt (by omega)).symm
    | a :: rest =>
      rw [split_into_batches_cons hb0 (by simp)]
      have hlen : ((a :: rest).drop b).length ≤ n := by
        simp only [List.length_drop, List.length_cons]
        simp only [List.length_cons] at h
        omega
      have hrec := ih ((a :: rest).drop b) hlen
      simp only [List.length_drop, List.length_cons] at hrec
      simp only [List.length_cons, hrec]
      rcases Nat.lt_or_ge (rest.length + 1) b with hcase | hcase
      · have h2 : (rest.length + 1 - b + b - 1) / b = 0 :=
          Nat.div_eq_of_lt (by omega)
        have h3 : (rest.length + 1 + b - 1) / b = 1 :=
          Nat.div_eq_of_lt_le (by omega) (by omega)
        omega
      · have h4 : rest.length + 1 + b - 1 = (rest.length + 1 - b + b - 1) + b := by
          omega
        rw [h4, Nat.add_div_right _ (by omega)]

/-- Concatenating the batches reconstructs the input (bounded-length form). -/
theorem split_into_batches_flatten_aux {b : Nat} (hb : 1 ≤ b) :
    ∀ n (items : List α), items.length ≤ n →
      (split_into_batches items b).flatten = items := by
  have hb0 : b ≠ 0 := Nat.one_le_iff_ne_zero.mp hb
  intro n
  induction n with
  | zero =>
    intro items h
    have : items = [] := List.length_eq_zero.mp (Nat.le_zero.mp h)
    subst this
    simp [split_into_batches_nil]
  | succ n ih =>
    intro items h
    match items with
    | [] => simp [split_into_batches_nil]
    | a :: rest =>
      rw [split_into_batches_cons hb0 (by simp)]
      have hlen : ((a :: rest).drop b).length ≤ n := by
        simp only [List.length_drop, List.length_cons]
        simp only [List.length_cons] at h
        omega
      have hrec := ih ((a :: rest).drop b) hlen
      simp only [List.flatten_cons, hrec, List.take_append_drop]

/-- Batch sizes (bounded-length form): every batch but the last has length
exactly `b`, and the last batch has length `N % b` (or `b` when `b ∣ N`). -/
theorem split_into_batches_sizes_aux {b : Nat} (hb : 1 ≤ b) :
    ∀ n (items : List α), items.length ≤ n →
      (∀ l ∈ (split_into_batches items b).dropLast, l.length = b) ∧
      (∀ l, (split_into_batches items b).getLast? = some l →
        l.length = if items.length % b = 0 then b else items.length % b) := by
  have hb0 : b ≠ 0 := Nat.one_le_iff_ne_zero.mp hb
  intro n
  induction n with
  | zero =>
    intro items h
    have : items = [] := List.length_eq_zero.mp (Nat.le_zero.mp h)
    subst this
    simp [split_into_batches_nil]
  | succ n ih =>
    intro items h
    match items with
    | [] => simp [split_into_batches_nil]
    | a :: rest =>
      rw [split_into_batches_cons hb0 (by simp)]
      have hlen : ((a :: rest).drop b).length ≤ n := by
        simp only [List.length_drop, List.length_cons]
        simp only [List.length_cons] at h
        omega
      have hrec := ih ((a :: rest).drop b) hlen
      rcases le_or_lt (rest.length + 1) b with hcase | hcase
      · -- at most b items remain: a single, final batch of length N
        have hdrop : (a :: rest).drop b = [] :=
          List.drop_eq_nil_of_le (by simp; omega)
        rw [hdrop, split_into_batches_nil]
        constructor
        · intro l hl
          rw [List.dropLast_single] at hl
          exact absurd hl (List.not_mem_nil l)
        · intro l hl
          have hleq : (a :: rest).take b = l := by simpa using hl
          subst hleq
          simp only [List.length_take, List.length_cons]
          rcases Nat.eq_or_lt_of_le hcase with heq | hlt
          · rw [heq, Nat.mod_self, if_pos rfl]; omega
          · rw [Nat.mod_eq_of_lt hlt, if_neg (by omega)]; omega
      · -- head batch is full, recurse on the tail
        have hne : split_into_batches ((a :: rest).drop b) b ≠ [] := by
          rw [split_into_batches_cons hb0]
          · simp
          · intro hcon
            rw [List.drop_eq_nil_iff] at hcon
            simp at hcon; omega
        constructor
        · intro l hl
          rw [List.dropLast_cons_of_ne_nil hne] at hl
          rcases List.mem_cons.mp hl with hh | hh
          · subst hh; simp; omega
          · exact hrec.1 l hh
        · intro l hl
          rw [getLast?_cons_of_tail_ne_nil hne] at hl
          have hlast := hrec.2 l hl
          have hmod : ((a :: rest).drop b).length % b = (a :: rest).length % b := by
            simp only [List.length_drop, List.length_cons]
            conv_rhs => rw [show rest.length + 1 = (rest.length + 1 - b) + b by omega]
            rw [Nat.add_mod_right]
          rw [hmod] at hlast
          exact hlast

/-- C5: For every list of N ≥ 0 identifiers and every batch size B ≥ 1,
`split_into_batches` yields exactly `ceil (N / B) = (N + B - 1)/B` batches
(zero when N = 0), every batch except possibly the last has exactly B items,
the last has `N % B` items (or B when `B ∣ N`), and concatenating the batches
in emission order reconstructs the input list exactly. -/
theorem split_into_batches_spec (items : List α) (b : Nat) (hb : 1 ≤ b) :
    (split_into_batches items b).length = (items.length + b - 1) / b ∧
    (split_into_batches items b).flatten = items ∧
    (∀ l ∈ (split_into_batches items b).dropLast, l.length = b) ∧
    (∀ l, (split_into_batches items b).getLast? = some l →
      l.length = if items.length % b = 0 then b else items.length % b) :=
  ⟨split_into_batches_length_aux hb items.length items le_rfl,
   split_into_batches_flatten_aux hb items.length items le_rfl,
   (split_into_batches_sizes_aux hb items.length items le_rfl).1,
   (split_into_batches_sizes_aux hb items.length items le_rfl).2⟩

/-- Witness for C5 at N = 5, B = 2: three batches [[0,1],[2,3],[4]]. -/
theorem split_into_batches_spec_witness :
    (split_into_batches [0, 1, 2, 3, 4] 2).length = (5 + 2 - 1) / 2 ∧
    (split_into_batches [0, 1, 2, 3, 4] 2).flatten = [0, 1, 2, 3, 4] ∧
    (∀ l ∈ (split_into_batches [0, 1, 2, 3, 4] 2).dropLast, l.length = 2) ∧
    (∀ l, (split_into_batches [0, 1, 2, 3, 4] 2).getLast? = some l →
      l.length = if ([0, 1, 2, 3, 4] : List Nat).length % 2 = 0 then 2
        else ([0, 1, 2, 3, 4] : List Nat).length % 2) := by
  have h := split_into_batches_spec ([0, 1, 2, 3, 4] : List Nat) 2 (by decide)
  simpa using h

/-! ## String-level helper lemmas for path distinctness -/

theorem string_data_append (a b : String) : (a ++ b).data = a.data ++ b.data :=
  rfl

theorem string_append_left_cancel {a b c : String} (h : a ++ b = a ++ c) :
    b = c := by
  have hd := congrArg String.data h
  rw [string_data_append, string_data_append] at hd
  exact String.ext (List.append_cancel_left hd)

theorem string_append_right_cancel {a b c : String} (h : a ++ c = b ++ c) :
    a = b := by
  have hd := congrArg String.data h
  rw [string_data_append, string_data_append] at hd
  exact String.ext (List.append_cancel_right hd)

/-- Joining is injective in its second argument when neither candidate
is an absolute path. -/
theorem path_join_right_injective {a b1 b2 : String}
    (h1 : b1.data.head? ≠ some '/') (h2 : b2.data.head? ≠ some '/')
    (h : path_join a b1 = path_join a b2) : b1 = b2 := by
  unfold path_join at h
  rw [if_neg h1, if_neg h2] at h
  by_cases ha : a = "" ∨ a.data.getLast? = some '/'
  · rw [if_pos ha, if_pos ha] at h
    exact string_append_left_cancel h
  · rw [if_neg ha, if_neg ha] at h
    exact string_append_left_cancel h

/-- Every character of the `splitext` stem occurs in the input. -/
theorem splitext_base_mem {f : String} {c : Char}
    (hc : c ∈ (splitext f).1.data) : c ∈ f.data := by
  unfold splitext at hc
  cases h : lastIdxOf '.' f.data with
  | none => rw [h] at hc; exact hc
  | some d =>
    rw [h] at hc
    simp only [splitextAt] at hc
    by_cases hall : (f.data.take d).all (· = '.')
    · rw [if_pos hall] at hc; exact hc
    · rw [if_neg hall] at hc
      exact List.mem_of_mem_take hc

/-- A filename containing no slash yields path-join arguments that do not
start with a slash. -/
theorem head?_ne_slash_of_no_slash {f : String} (hf : '/' ∉ f.data) :
    f.data.head? ≠ some '/' := by
  cases hd : f.data with
  | nil => simp
  | cons c cs =>
    simp only [List.head?_cons, ne_eq, Option.some.injEq]
    intro hcon
    exact hf (by rw [hd, hcon]; exact List.mem_cons_self '/' cs)

theorem splitext_head?_ne_slash {f : String} (hf : '/' ∉ f.data) :
    (splitext f).1.data.head? ≠ some '/' := by
  cases hd : (splitext f).1.data with
  | nil => simp
  | cons c cs =>
    simp only [List.head?_cons, ne_eq, Option.some.injEq]
    intro hcon
    subst hcon
    exact hf (splitext_base_mem (by rw [hd]; exact List.mem_cons_self '/' cs))

theorem base_pdf_head?_ne_slash {f : String} (hf : '/' ∉ f.data) :
    ((splitext f).1 ++ ".pdf").data.head? ≠ some '/' := by
  rw [string_data_append]
  cases hd : (splitext f).1.data with
  | nil => simp [String.data]
  | cons c cs =>
    simp only [List.cons_append, List.head?_cons, ne_eq, Option.some.injEq]
    intro hcon
    subst hcon
    exact hf (splitext_base_mem (by rw [hd]; exact List.mem_cons_self '/' cs))

/-- C9 counterexample: `"a.pdf"` and `"a.png"` are distinct filenames, both
accepted by the Driver's input filter, yet they share the document identifier
`"a"` and hence collide on the remote upload key, the local converted-file
path, the document output directory, and the JobTable key — refuting the claim
that distinct filenames in a batch always yield pairwise distinct derived
paths. -/
theorem get_file_paths_collision_counterexample :
    ("a.pdf" : String) ≠ "a.png" ∧
    accepted_input "a.pdf" = true ∧
    accepted_input "a.png" = true ∧
    (get_file_paths "a.pdf" "tmp" "input" "output").base_name =
      (get_file_paths "a.png" "tmp" "input" "output").base_name ∧
    (get_file_paths "a.pdf" "tmp" "input" "output").s3_pdf_key =
      (get_file_paths "a.png" "tmp" "input" "output").s3_pdf_key ∧
    (get_file_paths "a.pdf" "tmp" "input" "output").pdf_file =
      (get_file_paths "a.png" "tmp" "input" "output").pdf_file ∧
    (get_file_paths "a.pdf" "tmp" "input" "output").doc_output_dir =
      (get_file_paths "a.png" "tmp" "input" "output").doc_output_dir := by
  refine ⟨by decide, by decide, by decide, rfl, rfl, rfl, rfl⟩

/-- C9 amended: for two `os.listdir` entries (filenames containing no `/`)
whose document identifiers — the filename without its extension — differ, the
derived JobTable key, remote upload key, local converted-file path, document
output directory and source path are pairwise distinct.  (The original claim,
quantified over all pairs of distinct filenames, fails when two filenames
share a stem, e.g. `"a.pdf"` and `"a.png"`.) -/
theorem get_file_paths_distinct_of_distinct_base
    (f1 f2 tmp_dir input_dir output_dir : String)
    (hs1 : '/' ∉ f1.data) (hs2 : '/' ∉ f2.data)
    (hbase : (splitext f1).1 ≠ (splitext f2).1) :
    (get_file_paths f1 tmp_dir input_dir output_dir).base_name ≠
      (get_file_paths f2 tmp_dir input_dir output_dir).base_name ∧
    (get_file_paths f1 tmp_dir input_dir output_dir).s3_pdf_key ≠
      (get_file_paths f2 tmp_dir input_dir output_dir).s3_pdf_key ∧
    (get_file_paths f1 tmp_dir input_dir output_dir).pdf_file ≠
      (get_file_paths f2 tmp_dir input_dir output_dir).pdf_file ∧
    (get_file_paths f1 tmp_dir input_dir output_dir).doc_output_dir ≠
      (get_file_paths f2 tmp_dir input_dir output_dir).doc_output_dir ∧
    (get_file_paths f1 tmp_dir input_dir output_dir).path_to_file ≠
      (get_file_paths f2 tmp_dir input_dir output_dir).path_to_file := by
  have hkey : (splitext f1).1 ++ ".pdf" ≠ (splitext f2).1 ++ ".pdf" := by
    intro h; exact hbase (string_append_right_cancel h)
  have hfile : f1 ≠ f2 := by
    intro h; exact hbase (by rw [h])
  refine ⟨hbase, hkey, ?_, ?_, ?_⟩
  · intro h
    exact hkey (path_join_right_injective (base_pdf_head?_ne_slash hs1)
      (base_pdf_head?_ne_slash hs2) h)
  · intro h
    exact hbase (path_join_right_injective (splitext_head?_ne_slash hs1)
      (splitext_head?_ne_slash hs2) h)
  · intro h
    exact hfile (path_join_right_injective (head?_ne_slash_of_no_slash hs1)
      (head?_ne_slash_of_no_slash hs2) h)

/-- Witness for the amended C9 at `"x.pdf"` and `"y.png"`. -/
theorem get_file_paths_distinct_witness :
    (get_file_paths "x.pdf" "tmp" "input" "output").base_name ≠
      (get_file_paths "y.png" "tmp" "input" "output").base_name ∧
    (get_file_paths "x.pdf" "tmp" "input" "output").s3_pdf_key ≠
      (get_file_paths "y.png" "tmp" "input" "output").s3_pdf_key ∧
    (get_file_paths "x.pdf" "tmp" "input" "output").pdf_file ≠
      (get_file_paths "y.png" "tmp" "input" "output").pdf_file ∧
    (get_file_paths "x.pdf" "tmp" "input" "output").doc_output_dir ≠
      (get_file_paths "y.png" "tmp" "input" "output").doc_output_dir ∧
    (get_file_paths "x.pdf" "tmp" "input" "output").path_to_file ≠
      (get_file_paths "y.png" "tmp" "input" "output").path_to_file :=
  get_file_paths_distinct_of_distinct_base "x.pdf" "y.png" "tmp" "input" "output"
    (by decide) (by decide) (by decide)

/-- C10: Persisting a list of harvested lines writes exactly the newline-join
of the lines to the raw-text artifact, so persisting then rereading
round-trips: for `["Dear Sir", "Yours truly"]` the artifact's content is
exactly `"Dear Sir\nYours truly"`. -/
theorem raw_text_roundtrip :
    raw_text_content ["Dear Sir", "Yours truly"] = "Dear Sir\nYours truly" := by
  rfl

/-! ## Helper lemmas about the shipped environment -/

theorem upload_call_nameError (impl : Except PyErr α) :
    pyCall "upload_file_to_s3" 4 impl =
      .error (.nameError "upload_file_to_s3") := by
  unfold pyCall
  rw [if_neg (by decide)]

theorem teardown_nameError (impl : Except PyErr (List String)) :
    batch_teardown_deletes impl =
      .error (.nameError "delete_all_files_in_bucket") := by
  unfold batch_teardown_deletes pyCall
  rw [if_neg (by decide)]

/-- Every preparation attempt in the shipped composition returns the absence
marker: either conversion fails first, or the body reaches the unresolved
`upload_file_to_s3` call, whose `NameError` the catch-all converts to `None`. -/
theorem prepare_always_none_aux (env : PrepEnv)
    (tmp_dir input_dir output_dir filename : String) :
    prepare_file_for_textract env tmp_dir input_dir output_dir filename = none := by
  show (prepare_body env tmp_dir input_dir output_dir filename).toOption = none
  unfold prepare_body
  simp only [upload_call_nameError]
  split
  · rfl
  · rfl

theorem phase1_jobs_shipped_empty (env : PrepEnv)
    (tmp_dir input_dir output_dir : String) (batch : List String) :
    phase1_jobs (prepare_file_for_textract env tmp_dir input_dir output_dir)
      batch = [] := by
  induction batch with
  | nil => rfl
  | cons d rest ih =>
    show List.filterMap _ (d :: rest) = []
    rw [List.filterMap_cons, prepare_always_none_aux]
    exact ih

/-- C4: In the composition as shipped, `prepare_file_for_textract` returns
`None` for every input file and every collaborator behavior (its upload step
invokes the undefined name `upload_file_to_s3`, raising `NameError`, which its
catch-all converts into the absence marker); consequently every batch's
JobTable is empty, the harvesting phase runs over an empty table so no
document is ever waited on or harvested, and the end-of-batch remote cleanup
invokes the likewise-undefined name `delete_all_files_in_bucket`. -/
theorem shipped_composition_spec :
    (∀ (env : PrepEnv) (tmp_dir input_dir output_dir filename : String),
      prepare_file_for_textract env tmp_dir input_dir output_dir filename
        = none) ∧
    (∀ (env : PrepEnv) (tmp_dir input_dir output_dir : String)
       (batch : List String),
      phase1_jobs (prepare_file_for_textract env tmp_dir input_dir output_dir)
        batch = []) ∧
    (∀ harvest : String × JobInfo → Except PyErr Unit,
      phase2_collect harvest [] = Except.ok ()) ∧
    definedNames.contains "upload_file_to_s3" = false ∧
    (∀ impl : Except PyErr (List String),
      batch_teardown_deletes impl =
        Except.error (PyErr.nameError "delete_all_files_in_bucket")) :=
  ⟨prepare_always_none_aux, phase1_jobs_shipped_empty,
   fun _ => rfl, by decide, teardown_nameError⟩

/-- C1 (evaluation of the code at the failing input): the end-of-batch remote
cleanup of the shipped code raises `NameError` on the undefined name
`delete_all_files_in_bucket` for every batch, so the remote deletion never
executes and no key is deleted — there is no CleanupSet accumulation anywhere
in the code, and the only defined deletion helper (`delete_files_from_s3`) is
never invoked by the batch loop; the claimed invariant (delete exactly the
keys of successfully harvested documents, retain keys of failed ones) has no
counterpart in the shipped behavior. -/
theorem cleanup_deletes_nothing :
    (∀ impl : Except PyErr (List String),
      batch_teardown_deletes impl =
        Except.error (PyErr.nameError "delete_all_files_in_bucket")) ∧
    definedNames.contains "delete_all_files_in_bucket" = false :=
  ⟨teardown_nameError, by decide⟩

/-- C3 counterexample: an exception raised inside one document's harvesting is
NOT caught at that document's boundary — `future.result()` re-raises it in
the coordinator; with documents `"a"` (raising) and `"b"` in the JobTable the
phase-2 loop aborts with the exception instead of completing, refuting the
claim that a harvesting exception never propagates to abort sibling documents
or the batch loop. -/
theorem harvest_exception_propagates_counterexample :
    phase2_collect harvestEx [("a", jobEx), ("b", jobEx)] =
      Except.error (PyErr.exc "boom") := by
  rfl

/-- On a list of documents whose bodies all succeed, the JobTable keeps every
document. -/
theorem phase1_length_all_ok (body : String → Except PyErr (String × JobInfo))
    (l : List String) (hok : ∀ d ∈ l, ∃ r, body d = .ok r) :
    (phase1_jobs (doc_boundary body) l).length = l.length := by
  induction l with
  | nil => rfl
  | cons d rest ih =>
    obtain ⟨r, hr⟩ := hok d (List.mem_cons_self d rest)
    have hb : doc_boundary body d = some r := by
      unfold doc_boundary; rw [hr]; rfl
    show (List.filterMap _ (d :: rest)).length = _
    rw [List.filterMap_cons, hb]
    have := ih (fun x hx => hok x (List.mem_cons_of_mem d hx))
    simp only [List.length_cons]
    rw [← this]
    rfl

/-- C3 amended: an exception in any single document's preparation is caught at
that document's boundary (the catch-all of `prepare_file_for_textract` turns
it into the absence marker), so injecting a failure into exactly one
document's preparation in a batch of K documents still yields K−1 JobRecords
and phase 1 completes; an exception raised inside a document's harvesting, by
contrast, is not caught and propagates out of the phase-2 loop
(see the counterexample). -/
theorem preparation_isolation_spec
    (body : String → Except PyErr (String × JobInfo))
    (batch : List String) (d0 : String) (e : PyErr)
    (hmem : d0 ∈ batch) (hnodup : batch.Nodup)
    (hfail : body d0 = .error e)
    (hok : ∀ d ∈ batch, d ≠ d0 → ∃ r, body d = .ok r) :
    (phase1_jobs (doc_boundary body) batch).length = batch.length - 1 := by
  induction batch with
  | nil => exact absurd hmem (List.not_mem_nil d0)
  | cons d rest ih =>
    rcases List.mem_cons.mp hmem with heq | hmem'
    · -- the failing document heads the batch; all of `rest` succeeds
      have hb : doc_boundary body d = none := by
        unfold doc_boundary; rw [← heq, hfail]; rfl
      show (List.filterMap _ (d :: rest)).length = _
      rw [List.filterMap_cons, hb]
      have hrest : ∀ x ∈ rest, ∃ r, body x = .ok r := by
        intro x hx
        refine hok x (List.mem_cons_of_mem d hx) ?_
        intro hxd
        rw [heq] at hxd
        exact (List.nodup_cons.mp hnodup).1 (hxd ▸ hx)
      have hall := phase1_length_all_ok body rest hrest
      unfold phase1_jobs at hall
      rw [hall]
      simp
    · -- the head succeeds; recurse
      have hd0 : d ≠ d0 := by
        intro hdd
        subst hdd
        exact (List.nodup_cons.mp hnodup).1 hmem'
      obtain ⟨r, hr⟩ := hok d (List.mem_cons_self d rest) hd0
      have hb : doc_boundary body d = some r := by
        unfold doc_boundary; rw [hr]; rfl
      have hrl := ih hmem' (List.nodup_cons.mp hnodup).2
        (fun x hx hxne => hok x (List.mem_cons_of_mem d hx) hxne)
      unfold phase1_jobs at hrl
      show (List.filterMap _ (d :: rest)).length = _
      rw [List.filterMap_cons, hb]
      simp only [List.length_cons]
      rw [hrl]
      have hre : 1 ≤ rest.length := by
        rcases rest with _ | _
        · exact absurd hmem' (List.not_mem_nil d0)
        · simp
      omega

/-- Witness for the amended C3 at K = 3 with the failure injected into
document `"b"`: two JobRecords remain. -/
theorem preparation_isolation_spec_witness :
    (phase1_jobs (doc_boundary prepBodyEx) ["a", "b", "c"]).length =
      (["a", "b", "c"] : List String).length - 1 :=
  preparation_isolation_spec prepBodyEx ["a", "b", "c"] "b"
    (PyErr.exc "injected") (by decide) (by decide) (by rfl)
    (by
      intro d hd hne
      refine ⟨(d, jobEx), ?_⟩
      unfold prepBodyEx
      rw [if_neg hne])

/-- C2 (evaluation of the code at the failing input): on a job whose status
reads in-progress on every poll, the shipped `wait_for_completion` has not
returned after any number of iterations — it has no retry ceiling, no
configurable delay, and no timed-out outcome (its only results are the two
booleans for terminal success and failure), contradicting the claimed
tri-state outcome within a configured retry budget.  Moreover the call site
in `main.py` passes four positional arguments (`job_id, textract,
max_retries, delay`) to the one-parameter definition, which is a
`TypeError`. -/
theorem wait_for_completion_never_times_out :
    (∀ i fuel, wait_for_completion (fun _ => "IN_PROGRESS") i fuel = none) ∧
    acceptsArgs "wait_for_completion" 4 = false := by
  refine ⟨?_, rfl⟩
  intro i fuel
  induction fuel generalizing i with
  | zero => rfl
  | succ n ih => simp [wait_for_completion, ih]

theorem parse_block_foldl (blocks : List (Block C B)) :
    ∀ acc : List String × List (WordInfo C B),
      blocks.foldl parse_block acc =
        (acc.1 ++ blocks.filterMap
           (fun b => if b.blockType = "LINE" then some b.text else none),
         acc.2 ++ blocks.filterMap
           (fun b => if b.blockType = "WORD" then
              some { text := b.text, confidence := b.conf, boundingBox := b.box }
            else none)) := by
  induction blocks with
  | nil => intro acc; simp
  | cons b bs ih =>
    intro acc
    simp only [List.foldl_cons, List.filterMap_cons]
    by_cases hl : b.blockType = "LINE"
    · rw [ih]
      simp [parse_block, hl]
    · by_cases hw : b.blockType = "WORD"
      · rw [ih]
        simp [parse_block, hl, hw]
      · rw [ih]
        simp [parse_block, hl, hw]

theorem parse_pages_foldl (pages : List (TextractResponse C B)) :
    ∀ acc : List String × List (WordInfo C B),
      pages.foldl (fun acc p => p.blocks.foldl parse_block acc) acc =
        (acc.1 ++ (pages.map line_texts).flatten,
         acc.2 ++ (pages.map word_records).flatten) := by
  induction pages with
  | nil => intro acc; simp
  | cons p ps ih =>
    intro acc
    simp only [List.foldl_cons, List.map_cons, List.flatten_cons]
    rw [parse_block_foldl, ih]
    simp [line_texts, word_records, List.append_assoc]

/-- The reconstructed artifacts are the page-ordered concatenations of LINE
texts and WORD records. -/
theorem parse_pages_eq (pages : List (TextractResponse C B)) :
    parse_pages pages =
      ((pages.map line_texts).flatten, (pages.map word_records).flatten) := by
  unfold parse_pages
  rw [parse_pages_foldl]
  simp

/-- If response `i` carries a cursor exactly when `i < last`, the fetch loop
started at `j ≤ last` with enough fuel collects exactly responses
`j, …, last`. -/
theorem fetch_pages_complete (resp : Nat → TextractResponse C B) (last : Nat)
    (hcur : ∀ i, ((resp i).nextToken).isSome = decide (i < last)) :
    ∀ fuel j (acc : List (TextractResponse C B)), j ≤ last →
      last + 1 - j ≤ fuel →
      fetch_pages resp j fuel acc =
        some (acc ++ (List.range' j (last + 1 - j)).map resp) := by
  intro fuel
  induction fuel with
  | zero => intro j acc hj hf; omega
  | succ n ih =>
    intro j acc hj hf
    rcases Nat.eq_or_lt_of_le hj with heq | hlt
    · -- j = last: this response carries no cursor; the loop stops here
      have h := hcur j
      rw [decide_eq_false (by omega)] at h
      have htok : (resp j).nextToken = none :=
        Option.not_isSome_iff_eq_none.mp (by rw [h]; simp)
      have hone : last + 1 - j = 1 := by omega
      unfold fetch_pages
      rw [htok, hone]
      rfl
    · -- j < last: this response carries a cursor; fetch the next one
      have htok : ((resp j).nextToken).isSome = true := by
        rw [hcur j]; exact decide_eq_true hlt
      obtain ⟨t, ht⟩ := Option.isSome_iff_exists.mp htok
      unfold fetch_pages
      rw [ht]
      rw [ih (j + 1) (acc ++ [resp j]) (by omega) (by omega)]
      have hrange : List.range' j (last + 1 - j) =
          j :: List.range' (j + 1) (last - j) := by
        have h1 : last + 1 - j = (last - j) + 1 := by omega
        rw [h1]
        rfl
      rw [hrange]
      simp

/-- C6: Given responses in which response `i` carries a continuation cursor
iff `i < last`, the Result Harvester issues exactly `last + 1` fetches
(stopping precisely at the first cursor-free response), and the reconstructed
line sequence is the concatenation, in response order, of each response's
LINE-typed elements' text, while the WORD-typed elements go, in response
order, to the word-info collection with text, confidence and bounding box. -/
theorem result_harvester_pagination_spec
    (resp : Nat → TextractResponse C B) (last : Nat)
    (hcur : ∀ i, ((resp i).nextToken).isSome = decide (i < last)) :
    extract_and_save_text_and_coords resp (last + 1) =
      some ((List.range (last + 1)).map resp,
            ((List.range (last + 1)).map (fun i => line_texts (resp i))).flatten,
            ((List.range (last + 1)).map (fun i => word_records (resp i))).flatten) ∧
    ((List.range (last + 1)).map resp).length = last + 1 := by
  constructor
  · have hfetch := fetch_pages_complete resp last hcur (last + 1) 0 []
      (Nat.zero_le last) (by omega)
    unfold extract_and_save_text_and_coords
    rw [hfetch]
    simp only [Option.map_some', List.nil_append]
    rw [parse_pages_eq]
    simp only [List.range_eq_range', List.map_map, Nat.sub_zero]
    rfl
  · simp

/-- Witness for C6 at `last = 1`: exactly two fetches, lines concatenated in
response order. -/
theorem result_harvester_pagination_spec_witness :
    extract_and_save_text_and_coords respEx (1 + 1) =
      some ((List.range (1 + 1)).map respEx,
            ((List.range (1 + 1)).map (fun i => line_texts (respEx i))).flatten,
            ((List.range (1 + 1)).map (fun i => word_records (respEx i))).flatten) ∧
    ((List.range (1 + 1)).map respEx).length = 1 + 1 :=
  result_harvester_pagination_spec respEx 1 (by intro i; cases i <;> rfl)

/-- C7: for every successfully harvested document, entity extraction is
attempted exactly once — with the corrected text when correction succeeded
(the collaborator returned a path that exists), and with the raw OCR text
otherwise — and a warning is logged exactly when correction failed, in which
case the pipeline still invokes entity extraction on the raw text. -/
theorem entity_extraction_exactly_once (base_name doc_output_dir raw_text : String)
    (env : HarvestEnv) :
    entity_call_args
        (process_textract_result_trace base_name doc_output_dir raw_text env) =
      [if correction_ok env then env.read_file (env.corrected_ret.getD "")
       else raw_text] ∧
    warn_count
        (process_textract_result_trace base_name doc_output_dir raw_text env) =
      (if correction_ok env then 0 else 1) := by
  cases henv : env.corrected_ret with
  | none =>
    have hok : correction_ok env = false := by
      unfold correction_ok; rw [henv]
    unfold process_textract_result_trace
    rw [henv, hok]
    constructor <;> rfl
  | some p =>
    have hok : correction_ok env = ((p != "") && env.path_exists p) := by
      unfold correction_ok; rw [henv]
    unfold process_textract_result_trace
    rw [henv, hok]
    dsimp only
    by_cases hcond : ((p != "") && env.path_exists p) = true
    · rw [if_pos hcond, if_pos hcond, if_pos hcond]
      constructor <;> rfl
    · rw [if_neg hcond, if_neg hcond, if_neg hcond]
      constructor <;> rfl

theorem string_length_append (a b : String) :
    (a ++ b).data.length = a.data.length + b.data.length := by
  rw [string_data_append, List.length_append]

/-- The canonical entities artifact and the raw fallback artifact never share
a path. -/
theorem entities_paths_distinct (base_name doc_output_dir : String) :
    path_join doc_output_dir (base_name ++ ".entities.json") ≠
      path_join doc_output_dir (base_name ++ ".entities_raw.txt") := by
  have hlen : ∀ s1 s2 : String, s1.data.length ≠ s2.data.length → s1 ≠ s2 := by
    intro s1 s2 h hcon
    exact h (by rw [hcon])
  have l1 : (".entities.json" : String).data.length = 14 := rfl
  have l2 : (".entities_raw.txt" : String).data.length = 17 := rfl
  have hhead : (base_name ++ ".entities.json").data.head? =
      (base_name ++ ".entities_raw.txt").data.head? := by
    rw [string_data_append, string_data_append]
    cases base_name.data with
    | nil => rfl
    | cons c cs => rfl
  unfold path_join
  by_cases h1 : (base_name ++ ".entities.json").data.head? = some '/'
  · have h1' : (base_name ++ ".entities_raw.txt").data.head? = some '/' := by
      rw [← hhead]; exact h1
    rw [if_pos h1, if_pos h1']
    apply hlen
    simp only [string_length_append, l1, l2]
    omega
  · have h1' : ¬ (base_name ++ ".entities_raw.txt").data.head? = some '/' := by
      rw [← hhead]; exact h1
    rw [if_neg h1, if_neg h1']
    by_cases h2 : doc_output_dir = "" ∨ doc_output_dir.data.getLast? = some '/'
    · rw [if_pos h2, if_pos h2]
      apply hlen
      simp only [string_length_append, l1, l2]
      omega
    · rw [if_neg h2, if_neg h2]
      apply hlen
      simp only [string_length_append, l1, l2]
      omega

/-- C8: for every input text, if the entity-extraction collaborator's output
parses as the expected structured format, its serialization is persisted as
the canonical `<id>.entities.json` artifact and that path is returned; if it
fails to parse, the raw collaborator output is persisted verbatim to the
distinctly-named fallback `<id>.entities_raw.txt`, the no-result marker
`none` is returned, and the function returns normally in both cases (its
catch-all converts even collaborator exceptions into the `None` marker, so
the parse failure cannot abort the document); the two artifact paths are
distinct for every document. -/
theorem extract_entities_fallback_spec {J : Type} (parse : String → Option J)
    (dump : J → String) (result base_name doc_output_dir : String) :
    (match parse result with
     | some parsed =>
       extract_entities_with_chatgpt parse dump result base_name doc_output_dir =
         ([(path_join doc_output_dir (base_name ++ ".entities.json"),
            dump parsed)],
          some (path_join doc_output_dir (base_name ++ ".entities.json")))
     | none =>
       extract_entities_with_chatgpt parse dump result base_name doc_output_dir =
         ([(path_join doc_output_dir (base_name ++ ".entities_raw.txt"),
            result)],
          none)) ∧
    path_join doc_output_dir (base_name ++ ".entities.json") ≠
      path_join doc_output_dir (base_name ++ ".entities_raw.txt") := by
  refine ⟨?_, entities_paths_distinct base_name doc_output_dir⟩
  cases h : parse result <;> simp [extract_entities_with_chatgpt, h]

end OcrPipeline

